import Mathlib

/-!
Verification of the data-access layer `database.py`: the session/transaction
scope `BaseModel.auto_commit`, the cardinality-checked lookup
`BaseModel.get_one`, the raw fetch `Engine.fetch_any`, and the result
normalizer `BaseModel.to_dict`, embedded shallowly as Lean functions over a
universe of Python runtime values.
-/

set_option autoImplicit false

namespace DbLayer

/-- Python exception kinds that the normalizer can raise at runtime:
`AttributeError` from accessing `__mapper__` on an object without one,
`TypeError` from `dict.update` applied to a non-mapping, and `IndexError`
from indexing `obj[-1]` on an empty row tuple. -/
inductive PyErr where
  | attributeError
  | typeError
  | indexError
deriving Repr, DecidableEq

/-- The universe of Python runtime values that can reach `to_dict` or be
produced by it: scalars, a datetime (carrying its `str` rendering), dicts and
lists, a mapped entity (its mapper columns as a name/value association list),
a result row (its tuple elements plus its `_mapping` association list), and an
unexecuted `Query` (carrying its SQL text). -/
inductive Obj where
  | pyNone : Obj
  | pyBool : Bool → Obj
  | pyInt : Int → Obj
  | pyStr : String → Obj
  | pyDatetime : String → Obj
  | pyDict : List (String × Obj) → Obj
  | pyList : List Obj → Obj
  | entity : List (String × Obj) → Obj
  | row : List Obj → List (String × Obj) → Obj
  | query : String → Obj
deriving Repr

/-- Python truthiness (`bool(x)`) for the values above: `None` is falsy,
numbers and strings are falsy when zero or empty, containers when empty;
entities, datetimes and queries are plain objects and hence truthy. -/
def truthy : Obj → Bool
  | .pyNone => false
  | .pyBool b => b
  | .pyInt n => n != 0
  | .pyStr s => s != ""
  | .pyDatetime _ => true
  | .pyDict [] => false
  | .pyDict _ => true
  | .pyList [] => false
  | .pyList _ => true
  | .entity _ => true
  | .row [] _ => false
  | .row _ _ => true
  | .query _ => true

/-- The per-field serialization step of the entity branch of `to_dict`:
`str(value)` when the value is a `datetime.datetime`, the value itself
otherwise. -/
def serializeVal : Obj → Obj
  | .pyDatetime s => .pyStr s
  | v => v

/-- Python dict assignment `result[key] = v`: update the entry in place when
the key is already present, append otherwise. -/
def dictInsert (d : List (String × Obj)) (k : String) (v : Obj) :
    List (String × Obj) :=
  if d.any (fun p => p.1 == k) then
    d.map (fun p => if p.1 == k then (k, v) else p)
  else d ++ [(k, v)]

/-- Python `result.update(m)`: insert every entry of `m` in order, so a later
entry wins on key collision. -/
def dictUpdate (d m : List (String × Obj)) : List (String × Obj) :=
  m.foldl (fun acc p => dictInsert acc p.1 p.2) d

/-- Python `getattr(obj, k)` on a mapped entity: the first column value bound
to the name `k`. -/
def getattrE (cols : List (String × Obj)) (k : String) : Obj :=
  match cols.find? (fun p => p.1 == k) with
  | some p => p.2
  | none => .pyNone

/-- The entity branch of `to_dict`: iterate `obj.__mapper__.c.keys()` (the
column names of the entity in declaration order) and assign
`result[key] = str(getattr(obj, key))` for datetimes, the raw attribute
otherwise. -/
def entityDict (cols : List (String × Obj)) : List (String × Obj) :=
  cols.foldl (fun res p => dictInsert res p.1 (serializeVal (getattrE cols p.1))) []

/-- Collect the results of normalizing each element of a list input:
the first raised exception propagates, otherwise the normalized elements are
returned in order together with the concatenated diagnostic output. -/
def listCollect : List (Except PyErr (Obj × List String)) →
    Except PyErr (List Obj × List String)
  | [] => .ok ([], [])
  | r :: rs =>
    match r with
    | .error e => .error e
    | .ok (v, lg) =>
      match listCollect rs with
      | .error e => .error e
      | .ok (vs, lgs) => .ok (v :: vs, lg ++ lgs)

/-- The join branch of `to_dict`: starting from `result = {}`, run
`result.update(to_dict(i))` over the row elements in order. A raised
exception propagates; an element whose normalization is not a dict makes
`dict.update` raise `TypeError`. -/
def joinCollect : List (Except PyErr (Obj × List String)) →
    List (String × Obj) → List String → Except PyErr (List (String × Obj) × List String)
  | [], acc, logs => .ok (acc, logs)
  | r :: rs, acc, logs =>
    match r with
    | .error e => .error e
    | .ok (.pyDict m, lg) => joinCollect rs (dictUpdate acc m) (logs ++ lg)
    | .ok (_, _) => .error .typeError

/-- `BaseModel.to_dict`, embedded with exceptions made explicit
(`Except PyErr`) and `print` output collected in a list of lines.
The branch order follows the source: `list` input → recurse elementwise;
unexecuted `Query` → report misuse and return `None`; `Row` → inspect the
truthiness of the last tuple element to pick the join-merge branch or the
flat `_mapping` branch; anything else falls into the entity branch, which
raises `AttributeError` unless the object really has a mapper. -/
def to_dict : Obj → Except PyErr (Obj × List String)
  | .pyList xs =>
    match listCollect (xs.attach.map (fun x => to_dict x.val)) with
    | .error e => .error e
    | .ok (vs, lgs) => .ok (.pyList vs, lgs)
  | .query _ => .ok (.pyNone, ["请先执行该sql语句!"])
  | .row elems mapping =>
    match elems.getLast? with
    | none => .error .indexError
    | some lastE =>
      if truthy lastE then
        match joinCollect (elems.attach.map (fun x => to_dict x.val)) [] [] with
        | .error e => .error e
        | .ok (m, lgs) => .ok (.pyDict m, lgs)
      else .ok (.pyDict mapping, [])
  | .entity cols => .ok (.pyDict (entityDict cols), [])
  | _ => .error .attributeError
termination_by o => sizeOf o
decreasing_by
  all_goals simp_wf
  · have := List.sizeOf_lt_of_mem x.property
    omega
  · have := List.sizeOf_lt_of_mem x.property
    omega

/-! ### The session and transaction scope -/

/-- Observable transaction-ending events issued to the underlying session. -/
inductive SessionEvent where
  | committed
  | rolledBack
deriving Repr, DecidableEq

/-- The session, abstracted to the trace of transaction-ending calls made on
it: `auto_commit` only ever calls `commit` or `rollback`, so the trace is what
distinguishes its exit paths. -/
structure DbSession where
  events : List SessionEvent
deriving Repr, DecidableEq

/-- `session.commit()`: appends a commit event to the session trace. -/
def commitS (s : DbSession) : DbSession := ⟨s.events ++ [.committed]⟩

/-- `session.rollback()`: appends a rollback event to the session trace. -/
def rollbackS (s : DbSession) : DbSession := ⟨s.events ++ [.rolledBack]⟩

/-- `BaseModel.auto_commit`, a context manager running a caller-supplied body:
the body is a function from the session to an outcome (`Except`: a normal
return value, or the exception object it raised) together with the session it
leaves behind. Per the source `try`/`except`: a normal return is followed by
`session.commit()`; an exception triggers `session.rollback()` and is
re-raised unchanged (`raise e`). -/
def autoCommit {ε α : Type} (body : DbSession → Except ε α × DbSession)
    (s : DbSession) : Except ε α × DbSession :=
  match body s with
  | (.ok a, s1) => (.ok a, commitS s1)
  | (.error e, s1) => (.error e, rollbackS s1)

/-! ### Queries, `get_one` and `fetch_any` -/

/-- A query as `get_one` sees it: its SQL text (what `str(query)` prints in
the diagnostic messages) and the list of rows it matches when executed. -/
structure QueryD where
  text : String
  rows : List Obj
deriving Repr

/-- Exceptions of the external ORM `Query.one`. -/
inductive OrmExc where
  | noResultFound
  | multipleResultsFound
deriving Repr, DecidableEq

/-- Modelled from the spec: the external ORM call `query.one()` underlying
`get_one` — `get_one` requires exactly one match, failing with the
ambiguous-result exception when more than one row matches and the not-found
exception when zero rows match. -/
def queryOne (q : QueryD) : Except OrmExc Obj :=
  match q.rows with
  | [] => .error .noResultFound
  | [r] => .ok r
  | _ => .error .multipleResultsFound

/-- `BaseModel.get_one`: runs `query.one()`, catches both cardinality
exceptions, prints a diagnostic containing the query text for each, and
implicitly returns `None` on those paths. Result: the returned value plus the
printed lines. -/
def getOne (q : QueryD) : Option Obj × List String :=
  match queryOne q with
  | .ok r => (some r, [])
  | .error .multipleResultsFound => (none, ["db_error: 查到多条数据\n" ++ q.text])
  | .error .noResultFound => (none, ["db_error: 查不到数据\n" ++ q.text])

/-- Modelled from the spec: the external `execute` call, abstracted as a
database mapping each SQL text to its full list of result rows. -/
def executeQ (db : String → List Obj) (sql : String) : List Obj := db sql

/-- Modelled from the spec: the cursor call `fetchmany(size=size)` —
`fetch_some(statement, limit)` materializes up to `limit` rows, and is
unbounded when `limit` is absent. -/
def fetchmany (rows : List Obj) (size : Option Nat) : List Obj :=
  match size with
  | none => rows
  | some n => rows.take n

/-- `Engine.fetch_any`: `self.execute(sql).fetchmany(size=size)`. -/
def fetch_any (db : String → List Obj) (sql : String) (size : Option Nat) :
    List Obj :=
  fetchmany (executeQ db sql) size

/-- Whether a value is a raw `datetime.datetime` object (as opposed to its
string rendering). -/
def isDatetime : Obj → Bool
  | .pyDatetime _ => true
  | _ => false

/-- A mapping is datetime-free when none of its values is a raw datetime
object. -/
def datetimeFree (d : List (String × Obj)) : Bool :=
  d.all (fun p => !isDatetime p.2)

/-! Unfolding equations for `to_dict`, with the `attach` bookkeeping of the
termination argument rewritten away. -/

theorem to_dict_pyList (xs : List Obj) :
    to_dict (.pyList xs) =
      match listCollect (xs.map to_dict) with
      | .error e => .error e
      | .ok (vs, lgs) => .ok (.pyList vs, lgs) := by
  rw [to_dict, List.attach_map_coe]

theorem to_dict_query (t : String) :
    to_dict (.query t) = .ok (.pyNone, ["请先执行该sql语句!"]) := by
  rw [to_dict]

theorem to_dict_row (elems : List Obj) (mapping : List (String × Obj)) :
    to_dict (.row elems mapping) =
      match elems.getLast? with
      | none => .error .indexError
      | some lastE =>
        if truthy lastE then
          match joinCollect (elems.map to_dict) [] [] with
          | .error e => .error e
          | .ok (m, lgs) => .ok (.pyDict m, lgs)
        else .ok (.pyDict mapping, []) := by
  rw [to_dict, List.attach_map_coe]

theorem to_dict_entity_eq (cols : List (String × Obj)) :
    to_dict (.entity cols) = .ok (.pyDict (entityDict cols), []) := by
  rw [to_dict]

theorem to_dict_pyNone : to_dict .pyNone = .error .attributeError := by
  rw [to_dict] <;> simp

theorem to_dict_pyBool (b : Bool) : to_dict (.pyBool b) = .error .attributeError := by
  rw [to_dict] <;> simp

theorem to_dict_pyInt (n : Int) : to_dict (.pyInt n) = .error .attributeError := by
  rw [to_dict] <;> simp

theorem to_dict_pyStr (s : String) : to_dict (.pyStr s) = .error .attributeError := by
  rw [to_dict] <;> simp

theorem to_dict_pyDatetime (s : String) :
    to_dict (.pyDatetime s) = .error .attributeError := by
  rw [to_dict] <;> simp

theorem to_dict_pyDict (d : List (String × Obj)) :
    to_dict (.pyDict d) = .error .attributeError := by
  rw [to_dict] <;> simp

/-! ### Helper lemmas -/

/-- When the key is fresh, Python dict assignment appends the new entry. -/
theorem dictInsert_fresh (d : List (String × Obj)) (k : String) (v : Obj)
    (h : d.any (fun p => p.1 == k) = false) :
    dictInsert d k v = d ++ [(k, v)] := by
  simp only [dictInsert, h]
  simp

/-- `getattr` returns the value of each column when column names are
distinct. -/
theorem getattrE_of_nodup (cols : List (String × Obj))
    (hnd : (cols.map Prod.fst).Nodup) :
    ∀ p ∈ cols, getattrE cols p.1 = p.2 := by
  induction cols with
  | nil => intro p hp; cases hp
  | cons q tl ih =>
    intro p hp
    simp only [List.map_cons, List.nodup_cons] at hnd
    rcases List.mem_cons.mp hp with rfl | hptl
    · simp [getattrE, List.find?]
    · have hne : (q.1 == p.1) = false := by
        apply beq_false_of_ne
        intro hqp
        exact hnd.1 (hqp ▸ List.mem_map_of_mem Prod.fst hptl)
      have htl := ih hnd.2 p hptl
      simpa [getattrE, List.find?, hne] using htl

/-- Folding fresh-keyed dict assignments appends the assigned entries in
order. -/
theorem foldl_dictInsert_fresh (f : String → Obj) :
    ∀ (l acc : List (String × Obj)),
    (∀ p ∈ l, acc.any (fun q => q.1 == p.1) = false) →
    (l.map Prod.fst).Nodup →
    l.foldl (fun res p => dictInsert res p.1 (f p.1)) acc =
      acc ++ l.map (fun p => (p.1, f p.1)) := by
  intro l
  induction l with
  | nil => intro acc _ _; simp
  | cons p tl ih =>
    intro acc hfresh hnd
    simp only [List.map_cons, List.nodup_cons] at hnd
    have hstep : dictInsert acc p.1 (f p.1) = acc ++ [(p.1, f p.1)] :=
      dictInsert_fresh _ _ _ (hfresh p (List.mem_cons_self p tl))
    have hfresh2 : ∀ q ∈ tl, (acc ++ [(p.1, f p.1)]).any (fun r => r.1 == q.1) = false := by
      intro q hq
      have h1 := hfresh q (List.mem_cons_of_mem p hq)
      have h2 : (p.1 == q.1) = false := by
        apply beq_false_of_ne
        intro hpq
        exact hnd.1 (hpq ▸ List.mem_map_of_mem Prod.fst hq)
      simp [List.any_append, h1, h2]
    calc (p :: tl).foldl (fun res q => dictInsert res q.1 (f q.1)) acc
        = tl.foldl (fun res q => dictInsert res q.1 (f q.1)) (acc ++ [(p.1, f p.1)]) := by
          simp [List.foldl_cons, hstep]
      _ = (acc ++ [(p.1, f p.1)]) ++ tl.map (fun q => (q.1, f q.1)) :=
          ih _ hfresh2 hnd.2
      _ = acc ++ (p :: tl).map (fun q => (q.1, f q.1)) := by
          simp

/-- On an entity with distinct column names, the entity branch produces
exactly the columns in order, each value serialized. -/
theorem entityDict_of_nodup (cols : List (String × Obj))
    (hnd : (cols.map Prod.fst).Nodup) :
    entityDict cols = cols.map (fun p => (p.1, serializeVal p.2)) := by
  have h1 : entityDict cols =
      cols.map (fun p => (p.1, serializeVal (getattrE cols p.1))) := by
    simpa [entityDict] using
      foldl_dictInsert_fresh (fun k => serializeVal (getattrE cols k)) cols []
        (by intro p _; simp) hnd
  rw [h1]
  apply List.map_congr_left
  intro p hp
  rw [getattrE_of_nodup cols hnd p hp]

/-- If every element of a list normalizes without raising, `listCollect`
succeeds and pairs the inputs with their normalizations in order. -/
theorem listCollect_ok :
    ∀ (l : List Obj), (∀ x ∈ l, ∃ v lg, to_dict x = .ok (v, lg)) →
    ∃ vs lgs, listCollect (l.map to_dict) = .ok (vs, lgs) ∧
      List.Forall₂ (fun x v => ∃ lg, to_dict x = .ok (v, lg)) l vs := by
  intro l
  induction l with
  | nil => intro _; exact ⟨[], [], rfl, List.Forall₂.nil⟩
  | cons x tl ih =>
    intro hall
    obtain ⟨v, lg, hx⟩ := hall x (List.mem_cons_self x tl)
    obtain ⟨vs, lgs, htl, hf⟩ := ih (fun y hy => hall y (List.mem_cons_of_mem x hy))
    refine ⟨v :: vs, lg ++ lgs, ?_, List.Forall₂.cons ⟨lg, hx⟩ hf⟩
    simp [List.map_cons, listCollect, hx, htl]

/-- If every element of a row normalizes to a dict, the join branch succeeds
and its result is the left fold of `dict.update` over those dicts. -/
theorem joinCollect_ok :
    ∀ (elems : List Obj) (ms : List (List (String × Obj))),
    List.Forall₂ (fun x m => ∃ lg, to_dict x = .ok (.pyDict m, lg)) elems ms →
    ∀ (acc : List (String × Obj)) (logs : List String),
    ∃ lgs, joinCollect (elems.map to_dict) acc logs =
      .ok (ms.foldl dictUpdate acc, lgs) := by
  intro elems ms hf
  induction hf with
  | nil => intro acc logs; exact ⟨logs, rfl⟩
  | @cons x m tl tm hx _ ih =>
    intro acc logs
    obtain ⟨lg, hxeq⟩ := hx
    obtain ⟨lgs, htl⟩ := ih (dictUpdate acc m) (logs ++ lg)
    refine ⟨lgs, ?_⟩
    simp [List.map_cons, joinCollect, hxeq, htl, List.foldl_cons]

theorem isDatetime_serializeVal (v : Obj) : isDatetime (serializeVal v) = false := by
  cases v <;> simp [serializeVal, isDatetime]

theorem datetimeFree_dictInsert (d : List (String × Obj)) (k : String) (v : Obj)
    (hd : datetimeFree d = true) (hv : isDatetime v = false) :
    datetimeFree (dictInsert d k v) = true := by
  simp only [datetimeFree, List.all_eq_true] at hd ⊢
  simp only [dictInsert]
  split
  · intro p hp
    obtain ⟨q, hq, hqp⟩ := List.mem_map.mp hp
    by_cases hk : (q.1 == k) = true
    · simp only [hk, if_true] at hqp
      simp [← hqp, hv]
    · simp only [eq_false_of_ne_true hk, if_false] at hqp
      exact hqp ▸ hd q hq
  · intro p hp
    rcases List.mem_append.mp hp with h | h
    · exact hd p h
    · simp only [List.mem_singleton] at h
      simp [h, hv]

theorem datetimeFree_dictUpdate (d m : List (String × Obj))
    (hd : datetimeFree d = true) (hm : datetimeFree m = true) :
    datetimeFree (dictUpdate d m) = true := by
  induction m generalizing d with
  | nil => simpa [dictUpdate] using hd
  | cons p tl ih =>
    simp only [datetimeFree, List.all_cons, Bool.and_eq_true] at hm
    have h1 : datetimeFree (dictInsert d p.1 p.2) = true :=
      datetimeFree_dictInsert d p.1 p.2 hd (by simpa using hm.1)
    simpa [dictUpdate, List.foldl_cons] using
      ih (dictInsert d p.1 p.2) h1 (by simpa [datetimeFree] using hm.2)

theorem datetimeFree_entityDict (cols : List (String × Obj)) :
    datetimeFree (entityDict cols) = true := by
  suffices h : ∀ (l acc : List (String × Obj)), datetimeFree acc = true →
      datetimeFree (l.foldl
        (fun res p => dictInsert res p.1 (serializeVal (getattrE cols p.1))) acc) = true by
    exact h cols [] rfl
  intro l
  induction l with
  | nil => intro acc hacc; simpa using hacc
  | cons p tl ih =>
    intro acc hacc
    simp only [List.foldl_cons]
    exact ih _ (datetimeFree_dictInsert _ _ _ hacc (isDatetime_serializeVal _))

theorem datetimeFree_foldl_dictUpdate (ms : List (List (String × Obj)))
    (hms : ∀ m ∈ ms, datetimeFree m = true) :
    ∀ acc, datetimeFree acc = true → datetimeFree (ms.foldl dictUpdate acc) = true := by
  induction ms with
  | nil => intro acc hacc; simpa using hacc
  | cons m tl ih =>
    intro acc hacc
    simp only [List.foldl_cons]
    exact ih (fun q hq => hms q (List.mem_cons_of_mem m hq)) _
      (datetimeFree_dictUpdate acc m hacc (hms m (List.mem_cons_self m tl)))

/-! ### Claim theorems -/

/-- C1: for every body run inside the `auto_commit` transaction scope, a
normal return leads to a `commit` on the session, while an exception leads to
a `rollback` and the very same exception value propagating to the caller
unchanged — never swallowed or replaced. -/
theorem auto_commit_spec {ε α : Type} (body : DbSession → Except ε α × DbSession)
    (s : DbSession) :
    (∀ a s1, body s = (.ok a, s1) →
      autoCommit body s = (.ok a, ⟨s1.events ++ [.committed]⟩)) ∧
    (∀ e s1, body s = (.error e, s1) →
      autoCommit body s = (.error e, ⟨s1.events ++ [.rolledBack]⟩)) := by
  constructor
  · intro a s1 h
    simp [autoCommit, h, commitS]
  · intro e s1 h
    simp [autoCommit, h, rollbackS]

/-- Witness for C1: a body raising the exception value `"boom"` produces a
rollback event and the unchanged exception. -/
theorem auto_commit_spec_witness :
    autoCommit (fun s => ((Except.error "boom" : Except String Unit), s)) ⟨[]⟩ =
      (Except.error "boom", ⟨[SessionEvent.rolledBack]⟩) := by
  have h := (auto_commit_spec (fun s => ((Except.error "boom" : Except String Unit), s))
    ⟨[]⟩).2 "boom" ⟨[]⟩ rfl
  simpa using h

/-- C2 counterexample: on a query matching exactly one row, `get_one` returns
the raw entity object itself, not the normalized mapping the claim promises:
at this input the normalized form of the matched row is a dict, and the value
`get_one` returns differs from it. -/
theorem get_one_counterexample :
    to_dict (Obj.entity [("id", Obj.pyInt 1)]) =
      .ok (.pyDict [("id", Obj.pyInt 1)], []) ∧
    (getOne ⟨"SELECT user", [Obj.entity [("id", Obj.pyInt 1)]]⟩).1 ≠
      some (Obj.pyDict [("id", Obj.pyInt 1)]) := by
  constructor
  · simp [to_dict_entity_eq, entityDict, dictInsert, getattrE, serializeVal,
      List.find?]
  · intro h
    simp [getOne, queryOne] at h

/-- C2 (amended): `get_one` on a query matching exactly one row returns that
row itself (not its normalized form); on zero rows it returns absence and
prints a not-found report containing the issued query; on two or more rows it
returns absence and prints an ambiguous-result report containing the issued
query; none of these paths raises. -/
theorem get_one_cardinality (q : QueryD) :
    (∀ r, q.rows = [r] → getOne q = (some r, [])) ∧
    (q.rows = [] → getOne q = (none, ["db_error: 查不到数据\n" ++ q.text])) ∧
    (∀ r1 r2 rest, q.rows = r1 :: r2 :: rest →
      getOne q = (none, ["db_error: 查到多条数据\n" ++ q.text])) := by
  refine ⟨?_, ?_, ?_⟩
  · intro r h
    simp [getOne, queryOne, h]
  · intro h
    simp [getOne, queryOne, h]
  · intro r1 r2 rest h
    simp [getOne, queryOne, h]

/-- Witness for C2: a query matching two rows yields absence plus the
ambiguous-result report carrying the query text. -/
theorem get_one_cardinality_witness :
    getOne ⟨"q2", [Obj.pyInt 1, Obj.pyInt 2]⟩ =
      (none, ["db_error: 查到多条数据\n" ++ "q2"]) :=
  (get_one_cardinality ⟨"q2", [Obj.pyInt 1, Obj.pyInt 2]⟩).2.2
    (Obj.pyInt 1) (Obj.pyInt 2) [] rfl

/-- C4: on a single mapped entity with its declared column names, `to_dict`
returns a mapping listing exactly the declared column names (same key list,
hence the same key set), with datetime-valued fields rendered as their string
form and every other field copied verbatim. -/
theorem to_dict_entity_normalization (cols : List (String × Obj))
    (hnd : (cols.map Prod.fst).Nodup) :
    to_dict (Obj.entity cols) =
      .ok (.pyDict (cols.map (fun p => (p.1, serializeVal p.2))), []) ∧
    (cols.map (fun p => (p.1, serializeVal p.2))).map Prod.fst = cols.map Prod.fst ∧
    (∀ s, serializeVal (Obj.pyDatetime s) = Obj.pyStr s) ∧
    (∀ v, isDatetime v = false → serializeVal v = v) := by
  refine ⟨?_, ?_, fun s => rfl, ?_⟩
  · rw [to_dict_entity_eq, entityDict_of_nodup cols hnd]
  · simp
  · intro v hv
    cases v <;> simp_all [isDatetime, serializeVal]

/-- Witness for C4: a two-column entity with an integer and a datetime field
normalizes to the mapping with the datetime rendered as a string. -/
theorem to_dict_entity_normalization_witness :
    to_dict (Obj.entity
        [("id", Obj.pyInt 1), ("ts", Obj.pyDatetime "2020-01-01 00:00:00")]) =
      .ok (.pyDict
        [("id", Obj.pyInt 1), ("ts", Obj.pyStr "2020-01-01 00:00:00")], []) := by
  have h := (to_dict_entity_normalization
    [("id", Obj.pyInt 1), ("ts", Obj.pyDatetime "2020-01-01 00:00:00")]
    (by simp)).1
  simpa [serializeVal] using h

/-- C7: `to_dict` on an unexecuted query object prints the misuse report and
returns `None` — it neither raises nor returns a mapping. -/
theorem to_dict_query_misuse (t : String) :
    to_dict (Obj.query t) = .ok (.pyNone, ["请先执行该sql语句!"]) :=
  to_dict_query t

/-- C9: `fetch_any` materializes at most `size` rows when a limit is given
and every row of the executed statement when the limit is absent. -/
theorem fetch_any_limit (db : String → List Obj) (sql : String) :
    (∀ n, (fetch_any db sql (some n)).length ≤ n) ∧
    fetch_any db sql none = executeQ db sql := by
  constructor
  · intro n
    simp [fetch_any, fetchmany, executeQ]
  · rfl

/-- C10: `to_dict` applied to `None` — what `get_one` returns on an empty
match — neither returns absence nor a mapping: `None` is none of the four
handled shapes, falls into the single-entity branch, and the attribute access
`None.__mapper__` raises. -/
theorem to_dict_none_raises (t : String) :
    (getOne ⟨t, []⟩).1 = none ∧
    to_dict Obj.pyNone = .error .attributeError :=
  ⟨by simp [getOne, queryOne], to_dict_pyNone⟩

/-- C3 counterexample: `to_dict` is not total over the documented row-tuple
shape — a row whose last element is a truthy scalar (a flat projection whose
last selected column is nonzero) is sent to the join branch, which normalizes
each scalar element and raises `AttributeError` on the missing mapper. -/
theorem to_dict_totality_counterexample :
    to_dict (Obj.row [Obj.pyInt 1] [("id", Obj.pyInt 1)]) =
      .error .attributeError := by
  simp [to_dict_row, truthy, joinCollect, to_dict_pyInt]

/-- C3 (amended): `to_dict` is deterministic (it is a pure function of its
input), and it returns a value without raising on every unexecuted-query
input, every single mapped-entity input, every row tuple whose last element
is falsy, every row tuple whose last element is truthy when each element
normalizes to a mapping, and every list whose elements all normalize without
raising. It is not total on the remaining row tuples and lists. -/
theorem to_dict_totality_amended :
    (∀ t, ∃ v, to_dict (Obj.query t) = .ok v) ∧
    (∀ cols, ∃ v, to_dict (Obj.entity cols) = .ok v) ∧
    (∀ elems mapping lastE, elems.getLast? = some lastE → truthy lastE = false →
      ∃ v, to_dict (Obj.row elems mapping) = .ok v) ∧
    (∀ elems mapping lastE ms, elems.getLast? = some lastE → truthy lastE = true →
      List.Forall₂ (fun x m => ∃ lg, to_dict x = .ok (.pyDict m, lg)) elems ms →
      ∃ v, to_dict (Obj.row elems mapping) = .ok v) ∧
    (∀ l, (∀ x ∈ l, ∃ v lg, to_dict x = .ok (v, lg)) →
      ∃ v, to_dict (Obj.pyList l) = .ok v) := by
  refine ⟨fun t => ⟨_, to_dict_query t⟩, fun cols => ⟨_, to_dict_entity_eq cols⟩,
    ?_, ?_, ?_⟩
  · intro elems mapping lastE h1 h2
    refine ⟨(.pyDict mapping, []), ?_⟩
    rw [to_dict_row, h1]
    simp [h2]
  · intro elems mapping lastE ms h1 h2 hf
    obtain ⟨lgs, hj⟩ := joinCollect_ok elems ms hf [] []
    refine ⟨(.pyDict (ms.foldl dictUpdate []), lgs), ?_⟩
    rw [to_dict_row, h1]
    simp [h2, hj]
  · intro l hl
    obtain ⟨vs, lgs, hc, _⟩ := listCollect_ok l hl
    exact ⟨(.pyList vs, lgs), by simp [to_dict_pyList, hc]⟩

/-- Witness for C3: a flat projection row with a falsy last column normalizes
without raising. -/
theorem to_dict_totality_amended_witness :
    ∃ v, to_dict (Obj.row [Obj.pyStr "a", Obj.pyInt 0]
      [("name", Obj.pyStr "a"), ("n", Obj.pyInt 0)]) = .ok v :=
  to_dict_totality_amended.2.2.1 [Obj.pyStr "a", Obj.pyInt 0]
    [("name", Obj.pyStr "a"), ("n", Obj.pyInt 0)] (Obj.pyInt 0)
    (by simp) (by simp [truthy])

/-- C5 counterexample: on a row tuple of scalars whose last element is
truthy, `to_dict` is not the merge of elementwise normalizations at all: it
raises `AttributeError` while normalizing the first scalar element. -/
theorem to_dict_row_merge_counterexample :
    to_dict (Obj.row [Obj.pyInt 0, Obj.pyInt 1]
        [("a", Obj.pyInt 0), ("b", Obj.pyInt 1)]) =
      .error .attributeError := by
  simp [to_dict_row, truthy, joinCollect, to_dict_pyInt]

/-- C5 (amended): for a row tuple whose last element is falsy, `to_dict`
returns the flat `_mapping` of the row with no merging and no diagnostics;
for a row whose last element is truthy and whose elements each normalize to a
mapping, it returns the left-to-right merge of those mappings, a later entry
overwriting an earlier one on key collision (`dictUpdate` folded from the
empty dict). -/
theorem to_dict_row_cases (elems : List Obj) (mapping : List (String × Obj))
    (lastE : Obj) (hlast : elems.getLast? = some lastE) :
    (truthy lastE = false →
      to_dict (Obj.row elems mapping) = .ok (.pyDict mapping, [])) ∧
    (truthy lastE = true → ∀ ms,
      List.Forall₂ (fun x m => ∃ lg, to_dict x = .ok (.pyDict m, lg)) elems ms →
      ∃ lgs, to_dict (Obj.row elems mapping) =
        .ok (.pyDict (ms.foldl dictUpdate []), lgs)) := by
  constructor
  · intro h
    rw [to_dict_row, hlast]
    simp [h]
  · intro h ms hf
    obtain ⟨lgs, hj⟩ := joinCollect_ok elems ms hf [] []
    refine ⟨lgs, ?_⟩
    rw [to_dict_row, hlast]
    simp [h, hj]

/-- Witness for C5: a join row of two entities sharing the key `id` merges
into one mapping in which the later entity wins on the collision. -/
theorem to_dict_row_cases_witness :
    ∃ lgs, to_dict (Obj.row
        [Obj.entity [("id", Obj.pyInt 1), ("x", Obj.pyInt 7)],
         Obj.entity [("id", Obj.pyInt 2)]] []) =
      .ok (.pyDict ([[("id", Obj.pyInt 1), ("x", Obj.pyInt 7)],
        [("id", Obj.pyInt 2)]].foldl dictUpdate []), lgs) :=
  (to_dict_row_cases
      [Obj.entity [("id", Obj.pyInt 1), ("x", Obj.pyInt 7)],
       Obj.entity [("id", Obj.pyInt 2)]] []
      (Obj.entity [("id", Obj.pyInt 2)]) (by simp)).2 (by simp [truthy])
    [[("id", Obj.pyInt 1), ("x", Obj.pyInt 7)], [("id", Obj.pyInt 2)]]
    (by
      refine List.Forall₂.cons ⟨[], ?_⟩ (List.Forall₂.cons ⟨[], ?_⟩ List.Forall₂.nil) <;>
        simp [to_dict_entity_eq, entityDict, dictInsert, getattrE, serializeVal,
          List.find?])

/-- C6 counterexample: a flat projection row (falsy last element) containing
a datetime column is returned as its `_mapping` verbatim, so the produced
mapping still holds a raw datetime value, not its string form. -/
theorem to_dict_datetime_counterexample :
    to_dict (Obj.row [Obj.pyDatetime "2020-01-01 00:00:00", Obj.pyInt 0]
        [("ts", Obj.pyDatetime "2020-01-01 00:00:00"), ("n", Obj.pyInt 0)]) =
      .ok (.pyDict [("ts", Obj.pyDatetime "2020-01-01 00:00:00"),
        ("n", Obj.pyInt 0)], []) ∧
    datetimeFree [("ts", Obj.pyDatetime "2020-01-01 00:00:00"),
      ("n", Obj.pyInt 0)] = false := by
  constructor
  · simp [to_dict_row, truthy]
  · simp [datetimeFree, isDatetime]

/-- Rows whose elements are all entities normalize elementwise to
datetime-free dicts. -/
theorem forall2_entity_dicts (elems : List Obj)
    (h : ∀ x ∈ elems, ∃ cols, x = Obj.entity cols) :
    ∃ ms, List.Forall₂ (fun x m => ∃ lg, to_dict x = .ok (.pyDict m, lg)) elems ms ∧
      ∀ m ∈ ms, datetimeFree m = true := by
  induction elems with
  | nil => exact ⟨[], List.Forall₂.nil, by simp⟩
  | cons x tl ih =>
    obtain ⟨cols, rfl⟩ := h x (List.mem_cons_self x tl)
    obtain ⟨ms, hf, hdf⟩ := ih (fun y hy => h y (List.mem_cons_of_mem _ hy))
    refine ⟨entityDict cols :: ms,
      List.Forall₂.cons ⟨[], to_dict_entity_eq cols⟩ hf, ?_⟩
    intro m hm
    rcases List.mem_cons.mp hm with rfl | hm2
    · exact datetimeFree_entityDict cols
    · exact hdf m hm2

/-- C6 (amended): the mapping produced by `to_dict` from a single entity, or
from a join row (truthy last element) whose elements are entities, contains
no raw datetime value; a flat projection row is exempt, since its `_mapping`
is returned verbatim. -/
theorem to_dict_datetime_free :
    (∀ cols m lgs, to_dict (Obj.entity cols) = .ok (.pyDict m, lgs) →
      datetimeFree m = true) ∧
    (∀ elems mapping lastE m lgs,
      (∀ x ∈ elems, ∃ cols, x = Obj.entity cols) →
      elems.getLast? = some lastE → truthy lastE = true →
      to_dict (Obj.row elems mapping) = .ok (.pyDict m, lgs) →
      datetimeFree m = true) := by
  constructor
  · intro cols m lgs h
    rw [to_dict_entity_eq] at h
    simp only [Except.ok.injEq, Prod.mk.injEq, Obj.pyDict.injEq] at h
    rw [← h.1]
    exact datetimeFree_entityDict cols
  · intro elems mapping lastE m lgs hent hlast htr heq
    obtain ⟨ms, hf, hdf⟩ := forall2_entity_dicts elems hent
    obtain ⟨lgs2, hj⟩ := joinCollect_ok elems ms hf [] []
    rw [to_dict_row, hlast] at heq
    simp only [htr, if_true, hj, Except.ok.injEq, Prod.mk.injEq,
      Obj.pyDict.injEq] at heq
    rw [← heq.1]
    exact datetimeFree_foldl_dictUpdate ms hdf [] rfl

/-- Witness for C6: the mapping produced from a one-column datetime entity is
datetime-free (the value was rendered as a string). -/
theorem to_dict_datetime_free_witness :
    datetimeFree [("ts", Obj.pyStr "2020-01-01 00:00:00")] = true :=
  to_dict_datetime_free.1 [("ts", Obj.pyDatetime "2020-01-01 00:00:00")]
    [("ts", Obj.pyStr "2020-01-01 00:00:00")] []
    (by simp [to_dict_entity_eq, entityDict, dictInsert, getattrE, serializeVal,
      List.find?])

/-- C8 counterexample: a list containing `None` does not normalize to a list
at all — the recursive call on the element raises `AttributeError`, which
propagates out of the list branch. -/
theorem to_dict_list_counterexample :
    to_dict (Obj.pyList [Obj.pyNone]) = .error .attributeError := by
  simp [to_dict_pyList, listCollect, to_dict_pyNone]

/-- C8 (amended): on a list (possibly empty) all of whose elements normalize
without raising, `to_dict` returns a list of the same length whose i-th
element is the normalization of the i-th input element, preserving order
(stated as an elementwise `Forall₂` pairing). -/
theorem to_dict_list_map (l : List Obj)
    (h : ∀ x ∈ l, ∃ v lg, to_dict x = .ok (v, lg)) :
    ∃ vs lgs, to_dict (Obj.pyList l) = .ok (.pyList vs, lgs) ∧
      vs.length = l.length ∧
      List.Forall₂ (fun x v => ∃ lg, to_dict x = .ok (v, lg)) l vs := by
  obtain ⟨vs, lgs, hc, hf⟩ := listCollect_ok l h
  exact ⟨vs, lgs, by simp [to_dict_pyList, hc], hf.length_eq.symm, hf⟩

/-- Witness for C8: a one-element list of an entity normalizes to a
one-element list. -/
theorem to_dict_list_map_witness :
    ∃ vs lgs, to_dict (Obj.pyList [Obj.entity [("id", Obj.pyInt 1)]]) =
      .ok (.pyList vs, lgs) ∧
      vs.length = [Obj.entity [("id", Obj.pyInt 1)]].length ∧
      List.Forall₂ (fun x v => ∃ lg, to_dict x = .ok (v, lg))
        [Obj.entity [("id", Obj.pyInt 1)]] vs :=
  to_dict_list_map [Obj.entity [("id", Obj.pyInt 1)]]
    (by
      intro x hx
      rw [List.mem_singleton] at hx
      subst hx
      exact ⟨_, _, to_dict_entity_eq _⟩)

end DbLayer
